import Mathlib

/-
Shallow embedding of src/Plugin/openvdbi/Importer/oiVolume.cpp.

Modelling conventions:
* float values are modelled as exact rationals; the IEEE single-precision
  limits std::numeric_limits<float>::max() and std::numeric_limits<float>::min()
  appear as the exact rational constants floatMax and floatMin.  The min/max
  comparisons the code performs on finite floats are exact, so this is a
  faithful rendering of them.
* a float division whose divisor is zero yields NaN or an infinity; this is
  modelled by unlerp returning none.  Buffer cells hold Option Rat, with none
  standing for an undefined (NaN/Inf) value.
* the destination buffer (a raw float pointer in the source) is modelled as a
  total map from flat indices to cell contents.
* tbb parallelism: the pipeline's result is scheduling independent, so the two
  parallel_for loops are embedded by their sequential single-partition
  semantics (the exact iteration order of the source's nested z/y/x loops);
  the merge step for per-partition ranges is ValueRange.merge, whose
  order-independence is proved below.
* openvdb metadata lookup (metaValue, which throws openvdb exceptions on a
  missing key or a wrong type) is modelled by an Option-valued field; the
  try/catch of getIndexSpaceBoundingBox corresponds to the none branch, so
  totality of the Lean function renders "no exception escapes".
* 32-bit index arithmetic is idealised as unbounded integers; none of the
  verified claims concerns index overflow.
-/

/-- std::numeric_limits<float>::max(), exactly: 2^128 - 2^104, written as a
numeral so that it evaluates inside the kernel. -/
def floatMax : ℚ := 340282346638528859811704183484516925440

/-- std::numeric_limits<float>::min(): the smallest positive normal float,
exactly 2^(-126), built directly as a reduced fraction so that it evaluates
inside the kernel.  Note this is not the least representable float. -/
def floatMin : ℚ := ⟨1, 85070591730234615865843651857942052864, by decide, by decide⟩

/-- std::numeric_limits<float>::lowest(): the least representable float. -/
def floatLowest : ℚ := -floatMax

/-- std::numeric_limits<int>::max(), as a numeral. -/
def intMax : ℤ := 2147483647

/-- std::numeric_limits<int>::min(), as a numeral. -/
def intMin : ℤ := -2147483648

/-- openvdb::Coord / openvdb::Vec3i: a triple of 32-bit integers. -/
structure Vec3i where
  x : ℤ
  y : ℤ
  z : ℤ
  deriving DecidableEq

/-- openvdb::Vec3d: a triple of doubles, modelled over the rationals. -/
structure Vec3q where
  x : ℚ
  y : ℚ
  z : ℚ
  deriving DecidableEq

instance : Add Vec3q := ⟨fun a b => ⟨a.x + b.x, a.y + b.y, a.z + b.z⟩⟩

instance : Sub Vec3q := ⟨fun a b => ⟨a.x - b.x, a.y - b.y, a.z - b.z⟩⟩

instance : Mul Vec3q := ⟨fun a b => ⟨a.x * b.x, a.y * b.y, a.z * b.z⟩⟩

instance : Div Vec3q := ⟨fun a b => ⟨a.x / b.x, a.y / b.y, a.z / b.z⟩⟩

/-- The componentwise `+ 0.5` applied to a Vec3d in the source. -/
def vecHalf : Vec3q := ⟨1/2, 1/2, 1/2⟩

/-- Vec3i::asVec3d / the implicit Vec3i-to-Vec3d conversion. -/
def Vec3i.toVec3q (v : Vec3i) : Vec3q := ⟨(v.x : ℚ), (v.y : ℚ), (v.z : ℚ)⟩

/-- ValueRange<float> (oiVolume.cpp lines 13-36). -/
structure ValueRange where
  m_min : ℚ
  m_max : ℚ
  deriving DecidableEq

/-- The default constructor (lines 16-19): min starts at
numeric_limits::max(), max starts at numeric_limits::min(). -/
def ValueRange.mkDefault : ValueRange := ⟨floatMax, floatMin⟩

def ValueRange.getMin (r : ValueRange) : ℚ := r.m_min

def ValueRange.getMax (r : ValueRange) : ℚ := r.m_max

/-- addValue (lines 28-32). -/
def ValueRange.addValue (r : ValueRange) (value : ℚ) : ValueRange :=
  ⟨min r.m_min value, max r.m_max value⟩

/-- The per-partition merge step of sampleVolume (lines 124-127):
`out.addValue(r.getMin()); out.addValue(r.getMax())`. -/
def ValueRange.merge (out r : ValueRange) : ValueRange :=
  (out.addValue r.getMin).addValue r.getMax

/-- unlerp (lines 45-49): `(x - a) / (b - a)`.  A zero divisor produces
NaN/Inf in the source; here it produces none. -/
def unlerp (a b x : ℚ) : Option ℚ :=
  if b - a = 0 then none else some ((x - a) / (b - a))

/-- openvdb::CoordBBox: inclusive integer min/max corners. -/
structure CoordBBox where
  lo : Vec3i
  hi : Vec3i
  deriving DecidableEq

/-- The default-constructed CoordBBox (the `return {}` branches):
min = Coord::max(), max = Coord::min(), an empty box. -/
def CoordBBox.emptyBox : CoordBBox :=
  ⟨⟨intMax, intMax, intMax⟩, ⟨intMin, intMin, intMin⟩⟩

/-- CoordBBox::empty(): some component of min exceeds the matching
component of max. -/
def CoordBBox.empty (b : CoordBBox) : Bool :=
  b.hi.x < b.lo.x || b.hi.y < b.lo.y || b.hi.z < b.lo.z

/-- openvdb::BBoxd: world-space box with rational corners. -/
structure QBox where
  lo : Vec3q
  hi : Vec3q
  deriving DecidableEq

/-- BBoxd::extents(): max - min, componentwise. -/
def QBox.extents (b : QBox) : Vec3q := b.hi - b.lo

/-- The grid abstraction consumed by the importer: the two metadata entries
read by getIndexSpaceBoundingBox (none models a metaValue call that throws,
i.e. a missing key or a wrong type), the transform's indexToWorld applied to
an index-space box, and the world-space trilinear BoxSampler wsSample. -/
structure Grid where
  file_bbox_min : Option Vec3i
  file_bbox_max : Option Vec3i
  indexToWorld : CoordBBox → QBox
  wsSample : Vec3q → ℚ

/-- getIndexSpaceBoundingBox (lines 51-75).  The try/catch around the two
metaValue lookups is rendered by the none branches; each sentinel test
mirrors the source's componentwise comparisons, performed on the min bound
before the max bound is even looked up. -/
def getIndexSpaceBoundingBox (grid : Grid) : CoordBBox :=
  match grid.file_bbox_min with
  | none => CoordBBox.emptyBox
  | some file_bbox_min =>
    if file_bbox_min.x = intMax ∨ file_bbox_min.y = intMax ∨ file_bbox_min.z = intMax then
      CoordBBox.emptyBox
    else
      match grid.file_bbox_max with
      | none => CoordBBox.emptyBox
      | some file_bbox_max =>
        if file_bbox_max.x = intMin ∨ file_bbox_max.y = intMin ∨ file_bbox_max.z = intMin then
          CoordBBox.emptyBox
        else ⟨file_bbox_min, file_bbox_max⟩

/-- The cell visit order of sampleVolume's nested loops (lines 101-118):
z outermost, then y, then x innermost, each from 0 to its extent minus 1. -/
def cellListN (w h d : ℕ) : List (ℕ × ℕ × ℕ) :=
  (List.range d).flatMap fun z =>
    (List.range h).flatMap fun y =>
      (List.range w).map fun x => (x, y, z)

/-- domain_index.dot(stride) with stride = (1, w, w*h) (lines 90 and 108). -/
def linIndex (w h : ℕ) (c : ℕ × ℕ × ℕ) : ℕ :=
  c.1 + c.2.1 * w + c.2.2 * (w * h)

/-- The write trace of sampleVolume's sampling loop (lines 101-118), in
program order: per cell, the sampler value is stored in the 4 channel slots
at linear_index = dot(stride) * 4. -/
def writeOps (w h d : ℕ) (sampling_func : Vec3i → ℚ) : List (ℕ × ℚ) :=
  (cellListN w h d).flatMap fun c =>
    let sample_value := sampling_func ⟨(c.1 : ℤ), (c.2.1 : ℤ), (c.2.2 : ℤ)⟩
    let linear_index := linIndex w h c * 4
    [(linear_index, sample_value), (linear_index + 1, sample_value),
     (linear_index + 2, sample_value), (linear_index + 3, sample_value)]

/-- Replay a write trace against a buffer, in order. -/
def applyWrites (buf : ℕ → Option ℚ) (ops : List (ℕ × ℚ)) : ℕ → Option ℚ :=
  ops.foldl (fun b p => fun i => if i = p.1 then some p.2 else b i) buf

/-- The reduced value range computed by a run of sampleVolume's sampling
loop plus its merge loop (lines 100-127): one thread-local accumulator fed
in loop order, then the merge loop over the per-thread ranges folded into a
fresh default-constructed FloatRange. -/
def sampleRange (w h d : ℕ) (sampling_func : Vec3i → ℚ) : ValueRange :=
  let this_thread_range :=
    (cellListN w h d).foldl
      (fun r c => r.addValue (sampling_func ⟨(c.1 : ℤ), (c.2.1 : ℤ), (c.2.2 : ℤ)⟩))
      ValueRange.mkDefault
  let ranges := [this_thread_range]
  ranges.foldl ValueRange.merge ValueRange.mkDefault

/-- sampleVolume (lines 77-139): on an empty domain return false with the
buffer and the caller's range untouched; otherwise write all samples, fold
them into a thread-local range (single-partition sequential semantics of the
tbb loop), merge the partition ranges into out_value_range, and remap every
in-range buffer slot through unlerp.  The source function is declared bool
but falls off its end after the remap; callers never read that value, which
is modelled as true. -/
def sampleVolume (extents : Vec3i) (sampling_func : Vec3i → ℚ)
    (out_value_range : ValueRange) (out_samples : ℕ → Option ℚ) :
    Bool × ValueRange × (ℕ → Option ℚ) :=
  let domain : CoordBBox := ⟨⟨0, 0, 0⟩, ⟨extents.x - 1, extents.y - 1, extents.z - 1⟩⟩
  if domain.empty then
    (false, out_value_range, out_samples)
  else
    let w := extents.x.toNat
    let h := extents.y.toNat
    let d := extents.z.toNat
    let num_voxels := w * h * d
    let buf := applyWrites out_samples (writeOps w h d sampling_func)
    let merged := sampleRange w h d sampling_func
    let size := num_voxels * 4
    let normalized := fun i =>
      if i < size then (buf i).bind (unlerp merged.getMin merged.getMax) else buf i
    (true, merged, normalized)

/-- The sampling_func lambda of sampleGrid (lines 165-169). -/
def sampleGridFunc (grid : Grid) (sampling_extents : Vec3i) : Vec3i → ℚ :=
  let grid_bbox_is := getIndexSpaceBoundingBox grid
  let bbox_world := grid.indexToWorld grid_bbox_is
  let domain_extents := sampling_extents.toVec3q
  fun domain_index =>
    grid.wsSample (bbox_world.lo + (domain_index.toVec3q + vecHalf) / domain_extents * bbox_world.extents)

/-- sampleGrid (lines 141-172): resolve the index bbox, set the scale output
from the transformed box before the emptiness test, return false on an empty
box without sampling, otherwise run sampleVolume with the cell-centre
sampling function.  Result: (bool, value_range, scale, out_data). -/
def sampleGrid (grid : Grid) (sampling_extents : Vec3i)
    (value_range : ValueRange) (out_data : ℕ → Option ℚ) :
    Bool × ValueRange × Vec3q × (ℕ → Option ℚ) :=
  let grid_bbox_is := getIndexSpaceBoundingBox grid
  let bbox_world := grid.indexToWorld grid_bbox_is
  let scale := bbox_world.extents
  if grid_bbox_is.empty then
    (false, value_range, scale, out_data)
  else
    let r := sampleVolume sampling_extents (sampleGridFunc grid sampling_extents) value_range out_data
    (r.1, r.2.1, scale, r.2.2)

/-- oiVolumeSummary: the summary record exposed to the caller. -/
structure oiVolumeSummary where
  voxel_count : ℤ
  width : ℤ
  height : ℤ
  depth : ℤ
  texture_format : ℤ
  min_value : ℚ
  max_value : ℚ
  x_scale : ℚ
  y_scale : ℚ
  z_scale : ℚ
  deriving DecidableEq

/-- oiVolume state: grid reference, fixed extents, scale factor, summary. -/
structure oiVolume where
  m_grid : Grid
  m_extents : Vec3i
  m_scaleFactor : ℚ
  m_summary : oiVolumeSummary

/-- The oiVolume constructor (lines 174-182): voxel_count = x*y*z,
texture_format = 20, scale factor 1.  oiVolumeSummary's own constructor body
lives in a header that is not part of src/, so the initial values of the
min/max and scale fields are not visible here; they are taken as parameters. -/
def oiVolume.construct (grid : Grid) (extents : Vec3i)
    (init_min init_max init_x init_y init_z : ℚ) : oiVolume :=
  { m_grid := grid
    m_extents := extents
    m_scaleFactor := 1
    m_summary :=
      { voxel_count := extents.x * extents.y * extents.z
        width := extents.x
        height := extents.y
        depth := extents.z
        texture_format := 20
        min_value := init_min
        max_value := init_max
        x_scale := init_x
        y_scale := init_y
        z_scale := init_z } }

/-- setScaleFactor (lines 192-195). -/
def oiVolume.setScaleFactor (v : oiVolume) (scaleFactor : ℚ) : oiVolume :=
  { v with m_scaleFactor := scaleFactor }

/-- fillTextureBuffer (lines 197-225).  The voxels pointer is modelled as an
Option; the null branch returns with no mutation.  Otherwise a fresh
default-constructed FloatRange and the extents taken from the summary are
passed to sampleGrid, whose boolean result the source ignores, and the
summary's min/max and scale fields are overwritten unconditionally.  The
function returns void in the source; the model returns the updated volume
and buffer. -/
def oiVolume.fillTextureBuffer (v : oiVolume) (voxels : Option (ℕ → Option ℚ)) :
    oiVolume × Option (ℕ → Option ℚ) :=
  match voxels with
  | none => (v, none)
  | some data =>
    let extents : Vec3i := ⟨v.m_summary.width, v.m_summary.height, v.m_summary.depth⟩
    let value_range := ValueRange.mkDefault
    let r := sampleGrid v.m_grid extents value_range data
    ({ v with m_summary :=
        { v.m_summary with
          min_value := r.2.1.getMin
          max_value := r.2.1.getMax
          x_scale := r.2.2.1.x * v.m_scaleFactor
          y_scale := r.2.2.1.y * v.m_scaleFactor
          z_scale := r.2.2.1.z * v.m_scaleFactor } },
     some r.2.2.2)

/-- getSummary (lines 227-230). -/
def oiVolume.getSummary (v : oiVolume) : oiVolumeSummary := v.m_summary

/-- Refinement-side definition, written from the spec's words for the
lattice sampler: "compute the cell-center position in world space as
world_min + (cell_index + 0.5) / lattice_extents * world_extents". -/
def cellCenterFromSpec (world_min world_extents lattice_extents cell_index : Vec3q) : Vec3q :=
  world_min + (cell_index + vecHalf) / lattice_extents * world_extents

/-- Sequential range reduction over a list of samples, starting from the
default-constructed range, as a single-threaded run of the sampling loop
performs it. -/
def accumRange (l : List ℚ) : ValueRange :=
  l.foldl ValueRange.addValue ValueRange.mkDefault

/-- A concrete all-zero destination buffer used for concrete runs. -/
def bufZero : ℕ → Option ℚ := fun _ => some 0

/-- A concrete grid whose bounding-box metadata is absent, so both metaValue
calls throw and the resolved box is empty. -/
def gBad : Grid :=
  { file_bbox_min := none
    file_bbox_max := none
    indexToWorld := fun b => ⟨b.lo.toVec3q, b.hi.toVec3q⟩
    wsSample := fun _ => 0 }

/-- A concrete volume over gBad whose summary holds known prior values. -/
def vC1 : oiVolume :=
  { m_grid := gBad
    m_extents := ⟨1, 1, 1⟩
    m_scaleFactor := 1
    m_summary :=
      { voxel_count := 1, width := 1, height := 1, depth := 1, texture_format := 20
        min_value := 0, max_value := 1, x_scale := 7, y_scale := 7, z_scale := 7 } }

/-- A concrete grid with valid stored bounds (0,0,0)-(1,1,1), the identity
index-to-world transform on box corners, and a constant field of value 2. -/
def gOK : Grid :=
  { file_bbox_min := some ⟨0, 0, 0⟩
    file_bbox_max := some ⟨1, 1, 1⟩
    indexToWorld := fun b => ⟨b.lo.toVec3q, b.hi.toVec3q⟩
    wsSample := fun _ => 2 }

/-- A concrete volume over gOK with a 1x1x1 lattice. -/
def vOK : oiVolume :=
  { m_grid := gOK
    m_extents := ⟨1, 1, 1⟩
    m_scaleFactor := 1
    m_summary :=
      { voxel_count := 1, width := 1, height := 1, depth := 1, texture_format := 20
        min_value := 0, max_value := 0, x_scale := 0, y_scale := 0, z_scale := 0 } }


/- Characterisations of the numeral constants, recording that they are the
intended IEEE single-precision and 32-bit integer limits. -/

lemma floatMax_eq_pow : floatMax = 2 ^ 128 - 2 ^ 104 := by norm_num [floatMax]

lemma floatMin_eq_pow : floatMin = 1 / 2 ^ 126 := by
  rw [show floatMin = Rat.divInt 1 85070591730234615865843651857942052864 from
    Rat.mk'_eq_divInt, Rat.divInt_eq_div]
  norm_num

lemma intMax_eq_pow : intMax = 2 ^ 31 - 1 := by norm_num [intMax]

lemma intMin_eq_pow : intMin = -(2 ^ 31) := by norm_num [intMin]

/-- Claim C2.  The claim states that a default-constructed ValueRange has
max equal to the minimum representable value of the sample type, so that the
first addValue(x) yields min = max = x.  The code instead initialises max
with std::numeric_limits<float>::min(), the smallest positive normal float
(floatMin), which is not the least representable float (floatLowest): after
addValue(-1) the accumulator holds min = -1 but max = floatMin, not -1.
This theorem evaluates the embedded code at that failing input. -/
theorem C2_defaultRange_addValue :
    ValueRange.mkDefault.getMin = floatMax ∧
    ValueRange.mkDefault.getMax = floatMin ∧
    floatMin ≠ floatLowest ∧
    (ValueRange.mkDefault.addValue (-1)).getMin = -1 ∧
    (ValueRange.mkDefault.addValue (-1)).getMax = floatMin ∧
    (ValueRange.mkDefault.addValue (-1)).getMax ≠ -1 := by
  refine ⟨rfl, rfl, by decide, by decide, by decide, by decide⟩

/- Helper: with a non-empty domain and a degenerate reduced range, every
in-range slot of the normalized output buffer is undefined. -/
lemma sampleVolume_degenerate (extents : Vec3i) (f : Vec3i → ℚ)
    (vr : ValueRange) (buf : ℕ → Option ℚ)
    (hdom : CoordBBox.empty
      ⟨⟨0, 0, 0⟩, ⟨extents.x - 1, extents.y - 1, extents.z - 1⟩⟩ = false)
    (hdeg : (sampleRange extents.x.toNat extents.y.toNat extents.z.toNat f).getMax
      = (sampleRange extents.x.toNat extents.y.toNat extents.z.toNat f).getMin) :
    ∀ i, i < extents.x.toNat * extents.y.toNat * extents.z.toNat * 4 →
      (sampleVolume extents f vr buf).2.2 i = none := by
  intro i hi
  simp only [sampleVolume, hdom, Bool.false_eq_true, if_false, hi, if_true, if_pos]
  rw [hdeg]
  cases applyWrites buf
      (writeOps extents.x.toNat extents.y.toNat extents.z.toNat f) i with
  | none => rfl
  | some v => simp [unlerp]

/-- Claim C3, counterexample.  On a 1x1x1 lattice with the constant field 5
(the spec's own concrete scenario) the reduced range is degenerate
(max = min) and the normalization divides by zero: the buffer entry is
undefined (NaN/Inf, modelled none) rather than any defined, documented
policy value, so the claim as stated is false. -/
theorem C3_counterexample :
    (sampleRange 1 1 1 (fun _ => 5)).getMax = (sampleRange 1 1 1 (fun _ => 5)).getMin ∧
    (sampleVolume ⟨1, 1, 1⟩ (fun _ => 5) ValueRange.mkDefault bufZero).2.2 0 = none := by
  have hdeg : (sampleRange 1 1 1 (fun _ => (5 : ℚ))).getMax
      = (sampleRange 1 1 1 (fun _ => (5 : ℚ))).getMin := by decide
  exact ⟨hdeg,
    sampleVolume_degenerate ⟨1, 1, 1⟩ (fun _ => 5) ValueRange.mkDefault bufZero
      (by decide) hdeg 0 (by decide)⟩

/-- Claim C3, amended.  When the reduced range is degenerate the
normalization pass does not leave any defined value in the buffer: it
rewrites every in-range entry to an undefined NaN/Inf value (modelled none),
because unlerp divides by range.max - range.min = 0; there is no policy
value. -/
theorem C3_degenerate_normalization (extents : Vec3i) (f : Vec3i → ℚ)
    (vr : ValueRange) (buf : ℕ → Option ℚ)
    (hdom : CoordBBox.empty
      ⟨⟨0, 0, 0⟩, ⟨extents.x - 1, extents.y - 1, extents.z - 1⟩⟩ = false)
    (hdeg : (sampleRange extents.x.toNat extents.y.toNat extents.z.toNat f).getMax
      = (sampleRange extents.x.toNat extents.y.toNat extents.z.toNat f).getMin) :
    ∀ i, i < extents.x.toNat * extents.y.toNat * extents.z.toNat * 4 →
      (sampleVolume extents f vr buf).2.2 i = none :=
  sampleVolume_degenerate extents f vr buf hdom hdeg

/-- Claim C3, witness for the amended theorem at a concrete degenerate run. -/
theorem C3_witness :
    (sampleVolume ⟨1, 1, 1⟩ (fun _ => 5) ValueRange.mkDefault bufZero).2.2 2 = none :=
  C3_degenerate_normalization ⟨1, 1, 1⟩ (fun _ => 5) ValueRange.mkDefault bufZero
    (by decide) (by decide) 2 (by decide)

/-- Claim C4.  Bounding-box resolution returns the empty box whenever the
min-bound lookup fails, the min-bound triple has a component equal to the
integer type's max, the max-bound lookup fails, or the max-bound triple has
a component equal to the integer type's min; otherwise it returns the box
{min, max}.  Exceptions from the metadata lookups are modelled by the none
branches (the source's catch converts them to the empty box), so the Lean
function's totality renders "no exception escapes the resolver". -/
theorem C4_getIndexSpaceBoundingBox_spec (g : Grid) :
    (g.file_bbox_min = none → getIndexSpaceBoundingBox g = CoordBBox.emptyBox) ∧
    (∀ m, g.file_bbox_min = some m →
      (m.x = intMax ∨ m.y = intMax ∨ m.z = intMax) →
      getIndexSpaceBoundingBox g = CoordBBox.emptyBox) ∧
    (g.file_bbox_max = none → getIndexSpaceBoundingBox g = CoordBBox.emptyBox) ∧
    (∀ mM, g.file_bbox_max = some mM →
      (mM.x = intMin ∨ mM.y = intMin ∨ mM.z = intMin) →
      getIndexSpaceBoundingBox g = CoordBBox.emptyBox) ∧
    (∀ m mM, g.file_bbox_min = some m → g.file_bbox_max = some mM →
      ¬(m.x = intMax ∨ m.y = intMax ∨ m.z = intMax) →
      ¬(mM.x = intMin ∨ mM.y = intMin ∨ mM.z = intMin) →
      getIndexSpaceBoundingBox g = ⟨m, mM⟩) := by
  refine ⟨?_, ?_, ?_, ?_, ?_⟩
  · intro h
    simp [getIndexSpaceBoundingBox, h]
  · intro m hm hs
    simp only [getIndexSpaceBoundingBox, hm]
    rw [if_pos hs]
  · intro h
    rcases hm : g.file_bbox_min with _ | m
    · simp [getIndexSpaceBoundingBox, hm]
    · simp only [getIndexSpaceBoundingBox, hm, h]
      split_ifs <;> rfl
  · intro mM hmM hs
    rcases hm : g.file_bbox_min with _ | m
    · simp [getIndexSpaceBoundingBox, hm]
    · simp only [getIndexSpaceBoundingBox, hm, hmM]
      split_ifs <;> rfl
  · intro m mM h1 h2 hn1 hn2
    simp only [getIndexSpaceBoundingBox, h1, h2]
    rw [if_neg hn1, if_neg hn2]

/-- Claim C4, witness: a grid with valid non-sentinel bounds resolves to the
stored box. -/
theorem C4_witness : getIndexSpaceBoundingBox gOK = ⟨⟨0, 0, 0⟩, ⟨1, 1, 1⟩⟩ :=
  (C4_getIndexSpaceBoundingBox_spec gOK).2.2.2.2 ⟨0, 0, 0⟩ ⟨1, 1, 1⟩ rfl rfl
    (by decide) (by decide)

/-- Claim C5.  The sampling function sampleGrid hands to sampleVolume
evaluates the grid's world-space trilinear sampler at the cell-centre
position world_min + (cell_index + 0.5) / lattice_extents * world_extents,
where the world box is the grid's index-to-world transform applied to the
resolved index bounding box; cellCenterFromSpec is the spec's formula.  Both
sides are pure functions of the configuration and the cell index. -/
theorem C5_sampleGridFunc_cellCenter (grid : Grid) (sampling_extents domain_index : Vec3i) :
    sampleGridFunc grid sampling_extents domain_index =
      grid.wsSample (cellCenterFromSpec
        (grid.indexToWorld (getIndexSpaceBoundingBox grid)).lo
        (grid.indexToWorld (getIndexSpaceBoundingBox grid)).extents
        sampling_extents.toVec3q domain_index.toVec3q) := rfl

/-- Claim C1, counterexample.  vC1's grid has no bounding-box metadata, so
resolution yields the empty box; the claim says the summary's range fields
are then left at their prior values, but the fill overwrites min_value (0
beforehand) with the sentinel floatMax, so the claim as stated is false. -/
theorem C1_counterexample :
    (vC1.fillTextureBuffer (some bufZero)).1.m_summary.min_value
      ≠ vC1.m_summary.min_value := by decide

/-- Claim C1, amended.  When bounding-box resolution yields the empty box,
no write to the destination buffer occurs, but the summary is not left at
its prior values: min_value/max_value are overwritten with the sentinel
range (floatMax, floatMin) and the scale fields with the empty box's
world-space extents times the scale factor; fillTextureBuffer returns void
in the source, so no failure is surfaced to the caller. -/
theorem C1_emptyBox_fill (v : oiVolume) (buf : ℕ → Option ℚ)
    (he : (getIndexSpaceBoundingBox v.m_grid).empty = true) :
    (v.fillTextureBuffer (some buf)).2 = some buf ∧
    (v.fillTextureBuffer (some buf)).1.m_summary.min_value = floatMax ∧
    (v.fillTextureBuffer (some buf)).1.m_summary.max_value = floatMin ∧
    (v.fillTextureBuffer (some buf)).1.m_summary.x_scale =
      (v.m_grid.indexToWorld (getIndexSpaceBoundingBox v.m_grid)).extents.x * v.m_scaleFactor ∧
    (v.fillTextureBuffer (some buf)).1.m_summary.y_scale =
      (v.m_grid.indexToWorld (getIndexSpaceBoundingBox v.m_grid)).extents.y * v.m_scaleFactor ∧
    (v.fillTextureBuffer (some buf)).1.m_summary.z_scale =
      (v.m_grid.indexToWorld (getIndexSpaceBoundingBox v.m_grid)).extents.z * v.m_scaleFactor := by
  have hfill : v.fillTextureBuffer (some buf) =
      ({ v with m_summary := { v.m_summary with
          min_value := floatMax
          max_value := floatMin
          x_scale :=
            (v.m_grid.indexToWorld (getIndexSpaceBoundingBox v.m_grid)).extents.x * v.m_scaleFactor
          y_scale :=
            (v.m_grid.indexToWorld (getIndexSpaceBoundingBox v.m_grid)).extents.y * v.m_scaleFactor
          z_scale :=
            (v.m_grid.indexToWorld (getIndexSpaceBoundingBox v.m_grid)).extents.z * v.m_scaleFactor } },
        some buf) := by
    simp only [oiVolume.fillTextureBuffer, sampleGrid, he, if_true]
    rfl
  rw [hfill]
  exact ⟨rfl, rfl, rfl, rfl, rfl, rfl⟩

/-- Claim C1, witness for the amended theorem at the concrete volume vC1. -/
theorem C1_witness :
    (vC1.fillTextureBuffer (some bufZero)).1.m_summary.max_value = floatMin :=
  (C1_emptyBox_fill vC1 bufZero (by decide)).2.2.1

/-- Claim C9.  setScaleFactor(k) followed by a fill (here with a resolvable,
non-empty bounding box and a non-null buffer) stores in x/y/z_scale the
world-space extents of the transformed bounding box multiplied by k, and
each scale equals k times the scale a fill under factor 1 reports. -/
theorem C9_scaleFactor_fill (v : oiVolume) (k : ℚ) (buf : ℕ → Option ℚ)
    (hok : (getIndexSpaceBoundingBox v.m_grid).empty = false) :
    (((v.setScaleFactor k).fillTextureBuffer (some buf)).1.m_summary.x_scale =
        (v.m_grid.indexToWorld (getIndexSpaceBoundingBox v.m_grid)).extents.x * k ∧
      ((v.setScaleFactor k).fillTextureBuffer (some buf)).1.m_summary.y_scale =
        (v.m_grid.indexToWorld (getIndexSpaceBoundingBox v.m_grid)).extents.y * k ∧
      ((v.setScaleFactor k).fillTextureBuffer (some buf)).1.m_summary.z_scale =
        (v.m_grid.indexToWorld (getIndexSpaceBoundingBox v.m_grid)).extents.z * k) ∧
    (((v.setScaleFactor k).fillTextureBuffer (some buf)).1.m_summary.x_scale =
        k * ((v.setScaleFactor 1).fillTextureBuffer (some buf)).1.m_summary.x_scale ∧
      ((v.setScaleFactor k).fillTextureBuffer (some buf)).1.m_summary.y_scale =
        k * ((v.setScaleFactor 1).fillTextureBuffer (some buf)).1.m_summary.y_scale ∧
      ((v.setScaleFactor k).fillTextureBuffer (some buf)).1.m_summary.z_scale =
        k * ((v.setScaleFactor 1).fillTextureBuffer (some buf)).1.m_summary.z_scale) := by
  have hx : ∀ q : ℚ, ((v.setScaleFactor q).fillTextureBuffer (some buf)).1.m_summary.x_scale =
      (v.m_grid.indexToWorld (getIndexSpaceBoundingBox v.m_grid)).extents.x * q := by
    intro q
    simp only [oiVolume.setScaleFactor, oiVolume.fillTextureBuffer, sampleGrid, hok,
      Bool.false_eq_true, if_false]
  have hy : ∀ q : ℚ, ((v.setScaleFactor q).fillTextureBuffer (some buf)).1.m_summary.y_scale =
      (v.m_grid.indexToWorld (getIndexSpaceBoundingBox v.m_grid)).extents.y * q := by
    intro q
    simp only [oiVolume.setScaleFactor, oiVolume.fillTextureBuffer, sampleGrid, hok,
      Bool.false_eq_true, if_false]
  have hz : ∀ q : ℚ, ((v.setScaleFactor q).fillTextureBuffer (some buf)).1.m_summary.z_scale =
      (v.m_grid.indexToWorld (getIndexSpaceBoundingBox v.m_grid)).extents.z * q := by
    intro q
    simp only [oiVolume.setScaleFactor, oiVolume.fillTextureBuffer, sampleGrid, hok,
      Bool.false_eq_true, if_false]
  refine ⟨⟨hx k, hy k, hz k⟩, ?_, ?_, ?_⟩
  · rw [hx k, hx 1]
    ring
  · rw [hy k, hy 1]
    ring
  · rw [hz k, hz 1]
    ring

/-- Claim C9, witness at the concrete volume vOK with k = 2. -/
theorem C9_witness :
    ((vOK.setScaleFactor 2).fillTextureBuffer (some bufZero)).1.m_summary.x_scale =
      (gOK.indexToWorld (getIndexSpaceBoundingBox gOK)).extents.x * 2 :=
  (C9_scaleFactor_fill vOK 2 bufZero (by decide)).1.1

/-- Claim C10.  A fill mutates only the summary's min_value, max_value and
x/y/z_scale fields (the record-update equality forces every other component
of the volume, including voxel_count, width, height, depth and
texture_format, to keep its previous value); construction fixes
voxel_count = x*y*z, the dimensions, texture_format = 20 and scale factor 1;
and setScaleFactor mutates only the stored scalar factor, leaving the
summary untouched and performing no sampling. -/
theorem C10_frame (v : oiVolume) (voxels : Option (ℕ → Option ℚ)) (k : ℚ)
    (g : Grid) (e : Vec3i) (a b c d' e' : ℚ) :
    (∃ mn mx sx sy sz, (v.fillTextureBuffer voxels).1 =
        { v with m_summary := { v.m_summary with
            min_value := mn, max_value := mx,
            x_scale := sx, y_scale := sy, z_scale := sz } }) ∧
    v.setScaleFactor k = { v with m_scaleFactor := k } ∧
    (oiVolume.construct g e a b c d' e').m_summary.voxel_count = e.x * e.y * e.z ∧
    (oiVolume.construct g e a b c d' e').m_summary.width = e.x ∧
    (oiVolume.construct g e a b c d' e').m_summary.height = e.y ∧
    (oiVolume.construct g e a b c d' e').m_summary.depth = e.z ∧
    (oiVolume.construct g e a b c d' e').m_summary.texture_format = 20 ∧
    (oiVolume.construct g e a b c d' e').m_scaleFactor = 1 := by
  refine ⟨?_, rfl, rfl, rfl, rfl, rfl, rfl, rfl⟩
  cases voxels with
  | none =>
    exact ⟨v.m_summary.min_value, v.m_summary.max_value, v.m_summary.x_scale,
      v.m_summary.y_scale, v.m_summary.z_scale, rfl⟩
  | some data =>
    exact ⟨_, _, _, _, _, rfl⟩

/- Helper lemmas for the ValueRange merge algebra. -/

lemma merge_eq_union (B A : ValueRange) (h : A.m_min ≤ A.m_max) :
    ValueRange.merge B A = ⟨min B.m_min A.m_min, max B.m_max A.m_max⟩ := by
  unfold ValueRange.merge ValueRange.addValue ValueRange.getMin ValueRange.getMax
  simp only [ValueRange.mk.injEq]
  constructor
  · exact min_eq_left ((min_le_right _ _).trans h)
  · rw [max_assoc, max_eq_right h]

lemma foldl_addValue_eq (l : List ℚ) (r : ValueRange) :
    l.foldl ValueRange.addValue r = ⟨l.foldl min r.m_min, l.foldl max r.m_max⟩ := by
  induction l generalizing r with
  | nil => rfl
  | cons a t ih =>
    simp only [List.foldl_cons]
    rw [ih]
    rfl

lemma accumRange_eq (l : List ℚ) :
    accumRange l = ⟨l.foldl min floatMax, l.foldl max floatMin⟩ :=
  foldl_addValue_eq l ValueRange.mkDefault

lemma foldl_min_le_init (l : List ℚ) (a : ℚ) : l.foldl min a ≤ a := by
  induction l generalizing a with
  | nil => exact le_refl a
  | cons b t ih => exact (ih (min a b)).trans (min_le_left a b)

lemma le_foldl_max_init (l : List ℚ) (a : ℚ) : a ≤ l.foldl max a := by
  induction l generalizing a with
  | nil => exact le_refl a
  | cons b t ih => exact (le_max_left a b).trans (ih (max a b))

lemma foldl_min_pull (l : List ℚ) (a c : ℚ) :
    min a (l.foldl min c) = l.foldl min (min a c) := by
  induction l generalizing c with
  | nil => rfl
  | cons b t ih =>
    simp only [List.foldl_cons]
    rw [ih (min c b), min_assoc]

lemma foldl_max_pull (l : List ℚ) (a c : ℚ) :
    max a (l.foldl max c) = l.foldl max (max a c) := by
  induction l generalizing c with
  | nil => rfl
  | cons b t ih =>
    simp only [List.foldl_cons]
    rw [ih (max c b), max_assoc]

lemma accumRange_wf (l : List ℚ) (hl : l ≠ []) :
    (accumRange l).m_min ≤ (accumRange l).m_max := by
  cases l with
  | nil => exact absurd rfl hl
  | cons a t =>
    rw [accumRange_eq]
    simp only [List.foldl_cons]
    calc t.foldl min (min floatMax a) ≤ min floatMax a := foldl_min_le_init t _
    _ ≤ a := min_le_right _ _
    _ ≤ max floatMin a := le_max_right _ _
    _ ≤ t.foldl max (max floatMin a) := le_foldl_max_init t _

lemma foldl_merge_eq (ls : List (List ℚ)) :
    (∀ l ∈ ls, l ≠ []) → ∀ acc : ValueRange,
      acc.m_min ≤ floatMax → floatMin ≤ acc.m_max →
      (ls.map accumRange).foldl ValueRange.merge acc =
        ⟨ls.flatten.foldl min acc.m_min, ls.flatten.foldl max acc.m_max⟩ := by
  induction ls with
  | nil => intro _ acc _ _; rfl
  | cons l ls ih =>
    intro hne acc hmn hmx
    have hl : l ≠ [] := hne l (List.mem_cons_self l ls)
    have hwf : (accumRange l).m_min ≤ (accumRange l).m_max := accumRange_wf l hl
    simp only [List.map_cons, List.foldl_cons, List.flatten_cons]
    rw [merge_eq_union _ _ hwf, accumRange_eq]
    rw [foldl_min_pull, foldl_max_pull, min_eq_left hmn, max_eq_left hmx]
    rw [ih (fun l' hl' => hne l' (List.mem_cons_of_mem _ hl'))
      ⟨l.foldl min acc.m_min, l.foldl max acc.m_max⟩
      ((foldl_min_le_init l acc.m_min).trans hmn)
      (hmx.trans (le_foldl_max_init l acc.m_max))]
    simp only [List.foldl_append]

/-- Claim C8, counterexample.  Merging a default-constructed (sentinel)
ValueRange A into B = [0, 1] does not yield the union range: the code's
merge adds A's sentinel min floatMax into B's max, producing max = floatMax
instead of max 1 floatMin, so the claim's universal statement is false. -/
theorem C8_counterexample :
    ValueRange.merge ⟨0, 1⟩ ValueRange.mkDefault ≠
      ⟨min (0 : ℚ) ValueRange.mkDefault.getMin,
       max (1 : ℚ) ValueRange.mkDefault.getMax⟩ := by decide

/-- Claim C8, amended.  For well-formed ranges A (min ≤ max — every
partition-local range that has absorbed at least one sample is such),
merging A into B via addValue(A.min); addValue(A.max) yields the union
range (componentwise min of mins, max of maxes); on well-formed ranges the
merge is commutative and associative; and folding the per-partition ranges
of any partition of the sample stream into a fresh default range, in
partition order, equals the sequential reduction over all samples.  The
default-constructed sentinel itself is excluded: merging it in can widen
the target's max to floatMax (see the counterexample). -/
theorem C8_merge_union_assoc :
    (∀ A B : ValueRange, A.getMin ≤ A.getMax →
      ValueRange.merge B A = ⟨min B.getMin A.getMin, max B.getMax A.getMax⟩) ∧
    (∀ A B : ValueRange, A.getMin ≤ A.getMax → B.getMin ≤ B.getMax →
      ValueRange.merge B A = ValueRange.merge A B) ∧
    (∀ A B C : ValueRange, A.getMin ≤ A.getMax → B.getMin ≤ B.getMax →
      C.getMin ≤ C.getMax →
      ValueRange.merge (ValueRange.merge C B) A
        = ValueRange.merge C (ValueRange.merge B A)) ∧
    (∀ ls : List (List ℚ), (∀ l ∈ ls, l ≠ []) →
      (ls.map accumRange).foldl ValueRange.merge ValueRange.mkDefault
        = accumRange ls.flatten) := by
  refine ⟨?_, ?_, ?_, ?_⟩
  · intro A B h
    exact merge_eq_union B A h
  · intro A B hA hB
    rw [merge_eq_union B A hA, merge_eq_union A B hB, min_comm, max_comm]
  · intro A B C hA hB hC
    have hCB : (ValueRange.merge C B).m_min ≤ (ValueRange.merge C B).m_max := by
      rw [merge_eq_union C B hB]
      exact le_trans (le_trans (min_le_left _ _) hC) (le_max_left _ _)
    have hBA : (ValueRange.merge B A).m_min ≤ (ValueRange.merge B A).m_max := by
      rw [merge_eq_union B A hA]
      exact le_trans (le_trans (min_le_left _ _) hB) (le_max_left _ _)
    rw [merge_eq_union _ A hA, merge_eq_union C B hB, merge_eq_union C _ hBA,
      merge_eq_union B A hA]
    simp only [min_assoc, max_assoc]
  · intro ls hne
    rw [foldl_merge_eq ls hne ValueRange.mkDefault (le_refl _) (le_refl _),
      accumRange_eq]
    rfl

/-- Claim C8, witness: the amended union law at two concrete well-formed
ranges. -/
theorem C8_witness :
    ValueRange.merge ⟨2, 3⟩ ⟨0, 1⟩ = ⟨min (2 : ℚ) 0, max (3 : ℚ) 1⟩ :=
  C8_merge_union_assoc.1 ⟨0, 1⟩ ⟨2, 3⟩ (by decide)

/- Helper lemmas for the write-pass coverage argument. -/

lemma mem_cellListN {w h d x y z : ℕ} :
    (x, y, z) ∈ cellListN w h d ↔ x < w ∧ y < h ∧ z < d := by
  simp only [cellListN, List.mem_flatMap, List.mem_map, List.mem_range, Prod.mk.injEq]
  constructor
  · rintro ⟨z', hz', y', hy', x', hx', h1, h2, h3⟩
    subst h1
    subst h2
    subst h3
    exact ⟨hx', hy', hz'⟩
  · rintro ⟨hx, hy, hz⟩
    exact ⟨z, hz, y, hy, x, hx, rfl, rfl, rfl⟩

lemma range_flatMap_shift (B : ℕ) (f : ℕ → List ℕ) :
    ∀ n : ℕ, (∀ k, k < n → f k = (List.range B).map fun m => m + k * B) →
      (List.range n).flatMap f = List.range (n * B) := by
  intro n
  induction n with
  | zero => intro _; simp
  | succ t ih =>
    intro hf
    rw [List.range_succ, List.flatMap_append,
      ih (fun k hk => hf k (hk.trans (Nat.lt_succ_self t)))]
    simp only [List.flatMap_cons, List.flatMap_nil, List.append_nil]
    rw [hf t (Nat.lt_succ_self t), Nat.succ_mul, List.range_add]
    congr 1
    exact List.map_congr_left fun m _ => Nat.add_comm m (t * B)

lemma plane_map_lin (w h : ℕ) :
    ((List.range h).flatMap fun y => (List.range w).map fun x => x + y * w)
      = List.range (h * w) :=
  range_flatMap_shift w (fun y => (List.range w).map fun x => x + y * w) h
    (fun _ _ => rfl)

lemma flatMap_map_add (h w C : ℕ) (F : ℕ → ℕ → ℕ) :
    ((List.range h).flatMap fun y => (List.range w).map fun x => F x y + C)
      = (((List.range h).flatMap fun y => (List.range w).map fun x => F x y).map
          fun m => m + C) := by
  rw [List.map_flatMap]
  congr 1
  funext y
  rw [List.map_map]
  rfl

lemma cellListN_map_lin (w h d : ℕ) :
    (cellListN w h d).map (linIndex w h) = List.range (w * h * d) := by
  have hmain : (cellListN w h d).map (linIndex w h)
      = (List.range d).flatMap fun z =>
          (List.range h).flatMap fun y =>
            (List.range w).map fun x => x + y * w + z * (w * h) := by
    unfold cellListN
    rw [List.map_flatMap]
    congr 1
    funext z
    rw [List.map_flatMap]
    congr 1
    funext y
    rw [List.map_map]
    rfl
  rw [hmain]
  have hblocks : ((List.range d).flatMap fun z =>
      (List.range h).flatMap fun y =>
        (List.range w).map fun x => x + y * w + z * (w * h)) = List.range (d * (h * w)) := by
    apply range_flatMap_shift (h * w) _ d
    intro k _
    rw [flatMap_map_add h w (k * (w * h)) (fun x y => x + y * w), plane_map_lin]
    exact List.map_congr_left fun m _ => by rw [Nat.mul_comm w h]
  rw [hblocks]
  congr 1
  ring

lemma range_flatMap_quad (N : ℕ) :
    ((List.range N).flatMap fun n => [n * 4, n * 4 + 1, n * 4 + 2, n * 4 + 3])
      = List.range (N * 4) := by
  induction N with
  | zero => rfl
  | succ t ih =>
    rw [List.range_succ, List.flatMap_append, ih, Nat.succ_mul, List.range_add]
    simp only [List.flatMap_cons, List.flatMap_nil, List.append_nil]
    congr 1

lemma writeOps_map_fst (w h d : ℕ) (f : Vec3i → ℚ) :
    (writeOps w h d f).map Prod.fst = List.range (w * h * d * 4) := by
  unfold writeOps
  rw [List.map_flatMap]
  have hinner : ((cellListN w h d).flatMap fun c =>
      List.map Prod.fst
        (let sample_value := f ⟨(c.1 : ℤ), (c.2.1 : ℤ), (c.2.2 : ℤ)⟩
         let linear_index := linIndex w h c * 4
         [(linear_index, sample_value), (linear_index + 1, sample_value),
          (linear_index + 2, sample_value), (linear_index + 3, sample_value)]))
      = (cellListN w h d).flatMap fun c =>
          [linIndex w h c * 4, linIndex w h c * 4 + 1,
           linIndex w h c * 4 + 2, linIndex w h c * 4 + 3] := by
    congr 1
  rw [hinner, ← List.flatMap_map (linIndex w h)
    (fun n => [n * 4, n * 4 + 1, n * 4 + 2, n * 4 + 3]) (cellListN w h d)]
  rw [cellListN_map_lin, range_flatMap_quad]

lemma applyWrites_not_mem (ops : List (ℕ × ℚ)) :
    ∀ (buf : ℕ → Option ℚ) (i : ℕ), i ∉ ops.map Prod.fst →
      applyWrites buf ops i = buf i := by
  induction ops with
  | nil => intro _ _ _; rfl
  | cons p t ih =>
    intro buf i hi
    simp only [List.map_cons, List.mem_cons, not_or] at hi
    have hstep : applyWrites buf (p :: t) i
        = applyWrites (fun j => if j = p.1 then some p.2 else buf j) t i := rfl
    rw [hstep, ih _ i hi.2]
    simp [hi.1]

lemma applyWrites_mem (ops : List (ℕ × ℚ)) :
    ∀ (buf : ℕ → Option ℚ) (o : ℕ) (v : ℚ),
      (ops.map Prod.fst).Nodup → (o, v) ∈ ops → applyWrites buf ops o = some v := by
  induction ops with
  | nil => intro _ _ _ _ hmem; cases hmem
  | cons p t ih =>
    intro buf o v hnd hmem
    simp only [List.map_cons, List.nodup_cons] at hnd
    rcases List.mem_cons.mp hmem with heq | hmem'
    · subst heq
      have hstep : applyWrites buf ((o, v) :: t) o
          = applyWrites (fun j => if j = (o, v).1 then some (o, v).2 else buf j) t o := rfl
      rw [hstep, applyWrites_not_mem t _ o (by simpa using hnd.1)]
      simp
    · exact ih _ o v hnd.2 hmem'

lemma mem_writeOps (w h d : ℕ) (f : Vec3i → ℚ) (x y z ch : ℕ)
    (hx : x < w) (hy : y < h) (hz : z < d) (hch : ch < 4) :
    (linIndex w h (x, y, z) * 4 + ch, f ⟨(x : ℤ), (y : ℤ), (z : ℤ)⟩)
      ∈ writeOps w h d f := by
  unfold writeOps
  rw [List.mem_flatMap]
  refine ⟨(x, y, z), mem_cellListN.mpr ⟨hx, hy, hz⟩, ?_⟩
  interval_cases ch <;> simp

lemma linIndex_lt (w h d x y z : ℕ) (hx : x < w) (hy : y < h) (hz : z < d) :
    linIndex w h (x, y, z) < w * h * d := by
  show x + y * w + z * (w * h) < w * h * d
  have h2 : (y + 1) * w = y * w + w := Nat.succ_mul y w
  have h3 : (y + 1) * w ≤ h * w := Nat.mul_le_mul_right w hy
  have h6 : (z + 1) * (w * h) ≤ d * (w * h) := Nat.mul_le_mul_right (w * h) hz
  have h7 : (z + 1) * (w * h) = z * (w * h) + w * h := Nat.succ_mul z (w * h)
  have h8 : h * w = w * h := Nat.mul_comm h w
  have h9 : d * (w * h) = w * h * d := by ring
  omega

lemma applyWrites_writeOps_value (w h d x y z ch : ℕ) (f : Vec3i → ℚ)
    (buf : ℕ → Option ℚ) (hx : x < w) (hy : y < h) (hz : z < d) (hch : ch < 4) :
    applyWrites buf (writeOps w h d f) ((x + y * w + z * (w * h)) * 4 + ch)
      = some (f ⟨(x : ℤ), (y : ℤ), (z : ℤ)⟩) :=
  applyWrites_mem (writeOps w h d f) buf _ _
    (by rw [writeOps_map_fst]; exact List.nodup_range _)
    (mem_writeOps w h d f x y z ch hx hy hz hch)

/- Helper: the value a run of sampleVolume leaves at channel slot ch of
cell (x, y, z): the cell's raw sample pushed through the normalization. -/
lemma sampleVolume_entry (w h d x y z ch : ℕ) (f : Vec3i → ℚ) (vr : ValueRange)
    (buf : ℕ → Option ℚ) (hx : x < w) (hy : y < h) (hz : z < d) (hch : ch < 4) :
    (sampleVolume ⟨(w : ℤ), (h : ℤ), (d : ℤ)⟩ f vr buf).2.2
        ((x + y * w + z * (w * h)) * 4 + ch)
      = unlerp (sampleRange w h d f).getMin (sampleRange w h d f).getMax
          (f ⟨(x : ℤ), (y : ℤ), (z : ℤ)⟩) := by
  have hdom : CoordBBox.empty
      ⟨⟨0, 0, 0⟩, ⟨(w : ℤ) - 1, (h : ℤ) - 1, (d : ℤ) - 1⟩⟩ = false := by
    simp only [CoordBBox.empty, Bool.or_eq_false_iff, decide_eq_false_iff_not, not_lt]
    refine ⟨⟨?_, ?_⟩, ?_⟩ <;> omega
  have hlin : linIndex w h (x, y, z) < w * h * d := linIndex_lt w h d x y z hx hy hz
  have hbound : (x + y * w + z * (w * h)) * 4 + ch < w * h * d * 4 := by
    have hlin' : x + y * w + z * (w * h) < w * h * d := hlin
    omega
  simp only [sampleVolume, hdom, Bool.false_eq_true, if_false, Int.toNat_natCast]
  rw [if_pos hbound, applyWrites_writeOps_value w h d x y z ch f buf hx hy hz hch]
  rfl

/-- Claim C6.  For lattice extents with all dimensions at least 1: (i) the
flat offsets of the write pass, in program order, are exactly
0, 1, ..., w*h*d*4 - 1, so every one of the w*h*d*4 buffer slots is written
exactly once per pass; (ii) each cell (x,y,z) has its sampler value stored
in all 4 channel slots at flat offset (x + y*width + z*width*height) * 4
(the sampler evaluated once per cell, the identical value replicated);
(iii) after the full fill including normalization, all 4 channel slots of
every voxel are identical. -/
theorem C6_fill_writes (w h d : ℕ) (hw : 1 ≤ w) (hh : 1 ≤ h) (hd : 1 ≤ d)
    (f : Vec3i → ℚ) (vr : ValueRange) (buf : ℕ → Option ℚ) :
    ((writeOps w h d f).map Prod.fst = List.range (w * h * d * 4)) ∧
    (∀ x y z ch : ℕ, x < w → y < h → z < d → ch < 4 →
      applyWrites buf (writeOps w h d f) ((x + y * w + z * (w * h)) * 4 + ch)
        = some (f ⟨(x : ℤ), (y : ℤ), (z : ℤ)⟩)) ∧
    (∀ x y z c1 c2 : ℕ, x < w → y < h → z < d → c1 < 4 → c2 < 4 →
      (sampleVolume ⟨(w : ℤ), (h : ℤ), (d : ℤ)⟩ f vr buf).2.2
          ((x + y * w + z * (w * h)) * 4 + c1)
        = (sampleVolume ⟨(w : ℤ), (h : ℤ), (d : ℤ)⟩ f vr buf).2.2
            ((x + y * w + z * (w * h)) * 4 + c2)) := by
  refine ⟨writeOps_map_fst w h d f, ?_, ?_⟩
  · intro x y z ch hx hy hz hch
    exact applyWrites_writeOps_value w h d x y z ch f buf hx hy hz hch
  · intro x y z c1 c2 hx hy hz h1 h2
    rw [sampleVolume_entry w h d x y z c1 f vr buf hx hy hz h1,
      sampleVolume_entry w h d x y z c2 f vr buf hx hy hz h2]

/-- Claim C6, witness: on a 1x1x1 lattice with constant sampler 3, channel
slot 2 of cell (0,0,0) holds the sampler value. -/
theorem C6_witness :
    applyWrites bufZero (writeOps 1 1 1 (fun _ => 3)) 2 = some 3 := by
  have h := (C6_fill_writes 1 1 1 (le_refl 1) (le_refl 1) (le_refl 1) (fun _ => 3)
    ValueRange.mkDefault bufZero).2.1 0 0 0 2 (by decide) (by decide) (by decide) (by decide)
  simpa using h

/-- Claim C7.  The claim says that after a fill with a non-degenerate
reduced range every normalized sample lies in [0,1] with at least one exact
0.0 and one exact 1.0.  Because the sentinel max of the default ValueRange
is floatMin (the smallest positive float) rather than the least float, a
constant all-negative field (here -5 on a 1x1x1 lattice) yields the reduced
range (-5, floatMin): non-degenerate, yet every normalized entry equals 0
and no entry equals 1.  This theorem evaluates the embedded code at that
failing input. -/
theorem C7_allNegative_normalization :
    (sampleVolume ⟨1, 1, 1⟩ (fun _ => -5) ValueRange.mkDefault bufZero).2.1.getMin = -5 ∧
    (sampleVolume ⟨1, 1, 1⟩ (fun _ => -5) ValueRange.mkDefault bufZero).2.1.getMax = floatMin ∧
    (sampleVolume ⟨1, 1, 1⟩ (fun _ => -5) ValueRange.mkDefault bufZero).2.1.getMin ≠
      (sampleVolume ⟨1, 1, 1⟩ (fun _ => -5) ValueRange.mkDefault bufZero).2.1.getMax ∧
    (∀ ch : ℕ, ch < 4 →
      (sampleVolume ⟨1, 1, 1⟩ (fun _ => -5) ValueRange.mkDefault bufZero).2.2 ch = some 0) ∧
    (∀ ch : ℕ, ch < 4 →
      ¬(sampleVolume ⟨1, 1, 1⟩ (fun _ => -5) ValueRange.mkDefault bufZero).2.2 ch = some 1) := by
  have hsr : sampleRange 1 1 1 (fun _ => (-5 : ℚ)) = ⟨-5, floatMin⟩ := by decide
  have hrange : (sampleVolume ⟨1, 1, 1⟩ (fun _ => (-5 : ℚ)) ValueRange.mkDefault bufZero).2.1
      = ⟨-5, floatMin⟩ := by decide
  have hu : unlerp (-5) floatMin (-5) = some 0 := by
    simp only [unlerp]
    norm_num [floatMin_eq_pow]
  have hentry : ∀ ch : ℕ, ch < 4 →
      (sampleVolume ⟨1, 1, 1⟩ (fun _ => (-5 : ℚ)) ValueRange.mkDefault bufZero).2.2 ch
        = unlerp (-5) floatMin (-5) := by
    intro ch hch
    have he := sampleVolume_entry 1 1 1 0 0 0 ch (fun _ => (-5 : ℚ))
      ValueRange.mkDefault bufZero (by decide) (by decide) (by decide) hch
    rw [hsr] at he
    simpa [ValueRange.getMin, ValueRange.getMax] using he
  refine ⟨?_, ?_, ?_, ?_, ?_⟩
  · rw [hrange]
    rfl
  · rw [hrange]
    rfl
  · rw [hrange]
    decide
  · intro ch hch
    rw [hentry ch hch, hu]
  · intro ch hch
    rw [hentry ch hch, hu]
    decide
